import Mathlib

/-!
Verification model of `src/scripts/calculate_cluster_vectors.py`, the cluster
latent-vector pipeline of the candidate-match repository.

Modelling conventions.

* Python floats are modelled as exact rationals (`ℚ`) in the fully computable
  part of the pipeline: every IEEE float is a rational number and everything
  the script computes before the factorization stage is plain field
  arithmetic.  The singular-value-decomposition stage is modelled over the
  real numbers (`ℝ`), because exact decompositions in general need irrational
  entries.
* `np.nan`, used by the script as the marker for an absent vote, is modelled
  as `none` in `Option ℚ` cells.
* `np.linalg.svd` is a call into an external numeric library.  It enters the
  model in two ways: the orchestrator model takes the decomposition routine
  as an explicit function parameter (`SvdFun`), and the matrix-level theorems
  package what numpy documents about `svd(A, full_matrices=False)` as the
  predicate `IsFullSVD`.
* `np.argsort` with the default `kind` returns some value-ascending
  permutation of the index range; the relative order of equal values is not
  documented (the default quicksort is not stable).  The executable model
  must pick one deterministic refinement and uses the stable one, but every
  theorem about the selection quantifies over all index orders satisfying
  the documented contract (`IsValidArgsort`), so nothing proved depends on
  the refinement's tie order.
* Python dictionaries keyed by id (`bill_info`, the result maps) are modelled
  as functions into `Option` or as association lists.
-/

/-- Python exception kinds reachable from this module.  `zeroDivisionError` is
what Python raises for float division by zero.  `configurationError` is
modelled from the spec: the spec prescribes a `ConfigurationError` class for a
collapsed normalization range, but no class of that name exists anywhere in
the source tree; it is declared here only so that the spec's sentence can be
stated and compared with what the code does. -/
inductive PyError where
  | zeroDivisionError
  | configurationError
deriving DecidableEq, Repr

/-- `normalize_score` (lines 104-109): `2.0 * (score - min_score) / (max_score
- min_score) - 1.0`.  When the denominator is zero, Python's float division
raises `ZeroDivisionError`; otherwise the affine value is returned with no
clamping. -/
def normalize_score (score min_score max_score : ℚ) : Except PyError ℚ :=
  if max_score - min_score = 0 then .error .zeroDivisionError
  else .ok (2 * (score - min_score) / (max_score - min_score) - 1)

/-- One record of `load_bill_info` (lines 57-78): per-bill metadata. -/
structure BillInfo where
  passed : Bool
  deliberation_completed : Bool
  title : String
  description : String
deriving DecidableEq, Repr

/-- `get_bill_weight` (lines 81-101).  The argument models
`bill_info.get(bill_id, {})`: `none` plays the empty dict, and the
`dict.get(key, default)` reads inside the function give `false` for both
status fields in that case.  The `title` parameter is accepted and unused,
exactly as in the source. -/
def get_bill_weight (bill_info : Option BillInfo) (title : String) : ℚ :=
  let passed := (bill_info.map (fun b => b.passed)).getD false
  let deliberation_completed :=
    (bill_info.map (fun b => b.deliberation_completed)).getD false
  if passed then 1
  else if !deliberation_completed then 4/5
  else 3/5

/-- One entry of a member's scores inside a legislation record. -/
structure MemberScore where
  memberId : ℤ
  memberName : String
  score : ℚ
deriving DecidableEq, Repr

/-- One legislation record of `legislation_scores.json`. -/
structure LegislationScore where
  billId : ℤ
  memberScores : List MemberScore
deriving DecidableEq, Repr

/-- The per-bill detail dict assembled at lines 166-173. -/
structure BillDetail where
  billId : ℤ
  title : String
  passed : Bool
  deliberationCompleted : Bool
deriving DecidableEq, Repr

/-- One entry of a representative-bills list (lines 282-288): the detail
record plus the signed loading and its absolute value. -/
structure RepresentativeBill where
  billId : ℤ
  title : String
  passed : Bool
  deliberationCompleted : Bool
  loading : ℚ
  absLoading : ℚ
deriving DecidableEq, Repr

/-- The `(member_id, bill_id, score)` triples the loop at lines 129-141 scans,
in iteration order, restricted to the bills of the cluster (the `continue` at
line 131-132 is the filter). -/
def filtered_votes (legislation_scores : List LegislationScore)
    (cluster_bills : List ℤ) : List (ℤ × ℤ × ℚ) :=
  (legislation_scores.filter (fun ls => ls.billId ∈ cluster_bills)).flatMap
    (fun ls => ls.memberScores.map (fun ms => (ms.memberId, ls.billId, ms.score)))

/-- `member_scores_map[member_id][bill_id]` after the loop at lines 129-141:
repeated writes to the same (member, bill) key overwrite, so the last triple
in iteration order wins; the stored value is already normalized (line 140).
The default normalization range `[-10, 12]` never collapses, so the error
branch of `normalize_score` is unreachable here and `getD 0` is never used. -/
def member_score (legislation_scores : List LegislationScore)
    (cluster_bills : List ℤ) (member_id bill_id : ℤ) : Option ℚ :=
  (((filtered_votes legislation_scores cluster_bills).filter
      (fun v => v.1 = member_id ∧ v.2.1 = bill_id)).getLast?).map
    (fun v => ((normalize_score v.2.2 (-10) 12).toOption).getD 0)

/-- `sorted(member_scores_map.keys())` (line 144): the distinct member ids of
the filtered records, in ascending order. -/
def sorted_member_ids (legislation_scores : List LegislationScore)
    (cluster_bills : List ℤ) : List ℤ :=
  (((filtered_votes legislation_scores cluster_bills).map
      (fun v => v.1)).dedup).insertionSort (· ≤ ·)

/-- `sorted(cluster_bills)` (line 145).  Note: `sorted` does not remove
duplicates. -/
def sorted_bill_ids (cluster_bills : List ℤ) : List ℤ :=
  cluster_bills.insertionSort (· ≤ ·)

/-- The five-tuple returned by `build_voting_matrix` (lines 112-175). -/
structure BuildResult where
  matrix : List (List (Option ℚ))
  member_ids : List ℤ
  bill_ids : List ℤ
  weights : List ℚ
  bill_details : List BillDetail
deriving DecidableEq, Repr

/-- `build_voting_matrix` (lines 112-175).  `bill_info` models the
`Dict[int, Dict]` argument as a partial map; a bill id that is not a key
yields `none`, which plays the empty dict `bill_info.get(bill_id, {})`.
Matrix cells are `none` where the member has no vote on the bill
(`np.nan` in the source, line 151). -/
def build_voting_matrix (legislation_scores : List LegislationScore)
    (cluster_bills : List ℤ) (bill_info : ℤ → Option BillInfo) : BuildResult :=
  let member_ids := sorted_member_ids legislation_scores cluster_bills
  let bill_ids := sorted_bill_ids cluster_bills
  if member_ids = [] ∨ bill_ids = [] then ⟨[], [], [], [], []⟩
  else
    let matrix := member_ids.map (fun m =>
      bill_ids.map (fun b => member_score legislation_scores cluster_bills m b))
    let weights := bill_ids.map (fun b =>
      get_bill_weight (bill_info b) (((bill_info b).map (fun x => x.title)).getD ""))
    let bill_details := bill_ids.map (fun b =>
      (⟨b, ((bill_info b).map (fun x => x.title)).getD "",
        ((bill_info b).map (fun x => x.passed)).getD false,
        ((bill_info b).map (fun x => x.deliberation_completed)).getD false⟩ :
        BillDetail))
    ⟨matrix, member_ids, bill_ids, weights, bill_details⟩

/-- The present (non-`NaN`) values of column `j`, in row order: what
`np.nanmean(result, axis=0)` averages at line 184. -/
def column_present (matrix : List (List (Option ℚ))) (j : ℕ) : List ℚ :=
  matrix.filterMap (fun row => row.getD j none)

/-- The replacement value for an absent cell of column `j` (lines 184-190):
the mean of the column's present values, or `0` when the column has no
present value (`np.nanmean` of an all-`NaN` column is `NaN`, and line 190
replaces that by `0.0`). -/
def column_mean (matrix : List (List (Option ℚ))) (j : ℕ) : ℚ :=
  let p := column_present matrix j
  if p = [] then 0 else p.sum / p.length

/-- `impute_missing_values` (lines 178-192).  The source copies the matrix
and fills every `NaN` cell of column `j` with `column_mean matrix j`; present
cells are unchanged.  The output lives in `ℚ` (not `Option ℚ`): no absent
marker can remain after imputation. -/
def impute_missing_values (matrix : List (List (Option ℚ))) : List (List ℚ) :=
  matrix.map (fun row =>
    (List.range row.length).map (fun j => (row.getD j none).getD (column_mean matrix j)))

/-- `a.size` of a numpy 2-D array built from these rows: the total number of
entries. -/
def matrix_size (matrix : List (List α)) : ℕ := (matrix.map List.length).sum

/-- `matrix @ np.diag(weights)` (lines 219-220): column `j` scaled by
`weights[j]`.  In every pipeline call the weight vector has exactly one entry
per column. -/
def apply_weights (matrix : List (List ℚ)) (weights : List ℚ) : List (List ℚ) :=
  matrix.map (fun row => row.zipWith (· * ·) weights)

/-- The mean of a row, `np.mean(..., axis=1)` (line 223). -/
def row_mean (row : List ℚ) : ℚ := row.sum / row.length

/-- Row centering (lines 222-224): subtract each row's mean from the row. -/
def center_rows (matrix : List (List ℚ)) : List (List ℚ) :=
  matrix.map (fun row => row.map (fun x => x - row_mean row))

/-- The imputed, column-weighted, row-centered matrix handed to the SVD
(lines 216-224). -/
def pipeline_centered (matrix : List (List (Option ℚ))) (weights : List ℚ) :
    List (List ℚ) :=
  center_rows (apply_weights (impute_missing_values matrix) weights)

/-- The shape of `np.linalg.svd(C, full_matrices=False)`: `(U, S, Vt)`.  The
decomposition is an external numeric routine, so the orchestrator model is
parametric in it. -/
def SvdFun : Type := List (List ℚ) → List (List ℚ) × List ℚ × List (List ℚ)

/-- The shape contract numpy documents for
`np.linalg.svd(C, full_matrices=False)` on an `m x n` input: `U` has `m`
rows of length `K`, and `S` has `K` entries, with `K = min m n`. -/
def WellShapedSvd (svd : SvdFun) : Prop :=
  ∀ C, (svd C).1.length = C.length ∧
    (∀ r ∈ (svd C).1, r.length = min C.length ((C.headD []).length)) ∧
    (svd C).2.1.length = min C.length ((C.headD []).length)

/-- The four-tuple returned by `calculate_cluster_latent_vectors`. -/
structure FactorizeResult where
  member_latent : List (List ℚ)
  bill_loadings : List (List ℚ)
  singular_values : List ℚ
  explained_variance : List ℚ
deriving DecidableEq, Repr

/-- `calculate_cluster_latent_vectors` (lines 195-251) at list level, with the
SVD routine as a parameter.  The two all-empty returns mirror lines 212-213
(`voting_matrix.size == 0`) and 231-232 (`max_components == 0`); truncation
and the `U_k @ np.diag(S_k)` product mirror lines 237-243; the explained
variance ratio mirrors lines 245-249, its denominator summing the squares of
all singular values returned by the decomposition. -/
def calculate_cluster_latent_vectors (svd : SvdFun)
    (voting_matrix : List (List (Option ℚ))) (weights : List ℚ)
    (n_components : ℕ) : FactorizeResult :=
  if matrix_size voting_matrix = 0 then ⟨[], [], [], []⟩
  else
    let centered := pipeline_centered voting_matrix weights
    let m := centered.length
    let n := (centered.headD []).length
    let max_components := min n_components (min m n)
    if max_components = 0 then ⟨[], [], [], []⟩
    else
      let usv := svd centered
      let U_k := usv.1.map (fun row => row.take max_components)
      let S_k := usv.2.1.take max_components
      let V_k := (usv.2.2.take max_components).transpose
      let member_latent := U_k.map (fun row => row.zipWith (· * ·) S_k)
      let total_variance := ((usv.2.1.map (fun s => s ^ 2)).sum)
      let explained_variance :=
        if 0 < total_variance then S_k.map (fun s => s ^ 2 / total_variance) else []
      ⟨member_latent, V_k, S_k, explained_variance⟩

/-- The total order used by the executable model's refinement of
`np.argsort`: by value, ties by original position.  Numpy's default
quicksort documents no tie order, so no theorem concludes anything from
this choice beyond membership in the documented contract
(`IsValidArgsort`). -/
def arg_rel (v : List ℚ) (i j : ℕ) : Prop :=
  v.getD i 0 < v.getD j 0 ∨ (v.getD i 0 = v.getD j 0 ∧ i ≤ j)

instance (v : List ℚ) (i j : ℕ) : Decidable (arg_rel v i j) := by
  unfold arg_rel; infer_instance

instance (v : List ℚ) : IsTotal ℕ (arg_rel v) where
  total i j := by
    unfold arg_rel
    rcases lt_trichotomy (v.getD i 0) (v.getD j 0) with h | h | h
    · exact Or.inl (Or.inl h)
    · rcases Nat.le_total i j with hij | hij
      · exact Or.inl (Or.inr ⟨h, hij⟩)
      · exact Or.inr (Or.inr ⟨h.symm, hij⟩)
    · exact Or.inr (Or.inl h)

instance (v : List ℚ) : IsTrans ℕ (arg_rel v) where
  trans i j k hij hjk := by
    unfold arg_rel at hij hjk ⊢
    rcases hij with h | ⟨he, hi⟩ <;> rcases hjk with h2 | ⟨he2, hi2⟩
    · exact Or.inl (h.trans h2)
    · exact Or.inl (he2 ▸ h)
    · exact Or.inl (he ▸ h2)
    · exact Or.inr ⟨he.trans he2, hi.trans hi2⟩


/-- The executable refinement of `np.argsort(loadings)` at line 278: the
index range sorted ascending by value.  The real call's tie order is
unspecified; this refinement keeps ties in original order, and
`argsort_valid` records that it satisfies the documented contract. -/
def argsort (v : List ℚ) : List ℕ :=
  (List.range v.length).insertionSort (arg_rel v)

/-- Python slice `a[-n:]` for a natural `n`: for `n = 0` the slice `a[-0:]`
is `a[0:]`, the whole list; otherwise the last `min n (length a)` elements. -/
def pySliceLast (l : List α) (n : ℕ) : List α :=
  if n = 0 then l else l.drop (l.length - n)

/-- `np.argsort(loadings)[-top_n:][::-1]` (line 278): the selected indices of
one dimension, best first. -/
def top_indices (loadings : List ℚ) (top_n : ℕ) : List ℕ :=
  (pySliceLast (argsort loadings) top_n).reverse

/-- `find_representative_bills` (lines 254-292).  `bill_ids` is accepted and
unused, exactly as in the source.  Out-of-range index defaults can never fire
in pipeline calls, where `bill_loadings` has one row per entry of
`bill_details`. -/
def find_representative_bills (bill_loadings : List (List ℚ)) (bill_ids : List ℤ)
    (bill_details : List BillDetail) (top_n : ℕ) : List (List RepresentativeBill) :=
  if matrix_size bill_loadings = 0 then []
  else
    let n_components := (bill_loadings.headD []).length
    (List.range n_components).map (fun dim =>
      let loadings := bill_loadings.map (fun row => |row.getD dim 0|)
      (top_indices loadings top_n).map (fun idx =>
        let d := bill_details.getD idx ⟨0, "", false, false⟩
        (⟨d.billId, d.title, d.passed, d.deliberationCompleted,
          (bill_loadings.getD idx []).getD dim 0, loadings.getD idx 0⟩ :
          RepresentativeBill)))

/-- The contract numpy documents for `np.argsort(v)` with the default
`kind`: some permutation of the index range of `v`, ordered so that the
values are ascending.  The relative order of indices holding equal values is
deliberately not constrained: the default quicksort is documented as not
stable. -/
def IsValidArgsort (v : List ℚ) (idx : List ℕ) : Prop :=
  idx.Perm (List.range v.length) ∧
  idx.Pairwise (fun i j => v.getD i 0 ≤ v.getD j 0)

/-- What `idx[-top_n:][::-1]` guarantees for any index order `idx` that
satisfies numpy's argsort contract on the column `v`: it keeps
`min top_n (length v)` indices, their values are non-increasing, and every
selected index's value is at least every unselected index's value.  The
relative order of equal values, both inside the selection and at its
boundary, is inherited from `idx` and is therefore unspecified. -/
def TopSelectionSpec (v : List ℚ) (idx : List ℕ) (top_n : ℕ) : Prop :=
  ((pySliceLast idx top_n).reverse).length = min top_n v.length ∧
  ((pySliceLast idx top_n).reverse).Pairwise
    (fun i j => v.getD j 0 ≤ v.getD i 0) ∧
  ∀ i ∈ (pySliceLast idx top_n).reverse, ∀ j, j < v.length →
    j ∉ (pySliceLast idx top_n).reverse → v.getD j 0 ≤ v.getD i 0

/-- What the extractor guarantees per retained dimension: at most `top_n`
entries, sorted by non-increasing absolute loading; and, at the index level,
`TopSelectionSpec` for every index order consistent with numpy's argsort
contract on that dimension's absolute-loading column — the only ordering
facts the source's `np.argsort` call (default, non-stable `kind`) supports. -/
def ExtractorSpec (bill_loadings : List (List ℚ)) (bill_ids : List ℤ)
    (bill_details : List BillDetail) (top_n : ℕ) : Prop :=
  (∀ dimList ∈ find_representative_bills bill_loadings bill_ids bill_details top_n,
    dimList.length ≤ top_n ∧
    dimList.Pairwise (fun a b => b.absLoading ≤ a.absLoading)) ∧
  ∀ dim : ℕ, ∀ idx : List ℕ,
    IsValidArgsort (bill_loadings.map (fun row => |row.getD dim 0|)) idx →
    TopSelectionSpec (bill_loadings.map (fun row => |row.getD dim 0|)) idx top_n

/-- The per-cluster result dict (lines 316-362).  `billIds` is `some` exactly
when the Python dict carries the `"billIds"` key: the two short-circuit
returns at lines 317-325 and 333-341 build dicts without it, the full-path
return at lines 353-362 includes it. -/
structure ClusterResult where
  memberVectors : List (ℤ × List ℚ)
  billLoadings : List (List ℚ)
  representativeBills : List (List RepresentativeBill)
  explainedVariance : List ℚ
  dimensions : ℕ
  memberCount : ℕ
  billCount : ℕ
  billIds : Option (List ℤ)
deriving DecidableEq, Repr

/-- `calculate_vectors_for_cluster` (lines 295-362), parametric in the SVD
routine.  It is a total function: no input makes any branch of the model (or
of the source, for well-formed inputs) raise.  `dimensions` models
`member_latent.shape[1]` as the length of the first latent row. -/
def calculate_vectors_for_cluster (svd : SvdFun)
    (legislation_scores : List LegislationScore) (cluster_bills : List ℤ)
    (bill_info : ℤ → Option BillInfo) (n_components : ℕ) : ClusterResult :=
  let b := build_voting_matrix legislation_scores cluster_bills bill_info
  if matrix_size b.matrix = 0 then ⟨[], [], [], [], 0, 0, 0, none⟩
  else
    let f := calculate_cluster_latent_vectors svd b.matrix b.weights n_components
    if matrix_size f.member_latent = 0 then
      ⟨[], [], [], [], 0, b.member_ids.length, b.bill_ids.length, none⟩
    else
      ⟨b.member_ids.zip f.member_latent,
        if 0 < matrix_size f.bill_loadings then f.bill_loadings else [],
        find_representative_bills f.bill_loadings b.bill_ids b.bill_details 3,
        f.explained_variance,
        (f.member_latent.headD []).length,
        b.member_ids.length, b.bill_ids.length, some b.bill_ids⟩

/-- The same vote records with every raw score transformed pointwise:
identity structure, different scores.  Used to state that the builder's row
and column orders never depend on scores. -/
def mapScores (f : ℚ → ℚ) (legislation_scores : List LegislationScore) :
    List LegislationScore :=
  legislation_scores.map (fun r =>
    ⟨r.billId, r.memberScores.map (fun m => ⟨m.memberId, m.memberName, f m.score⟩)⟩)

/-- The order facts the builder guarantees on the non-degenerate path: rows
are the distinct member ids with at least one filtered vote, sorted
ascending; columns are `sorted(cluster_bills)` — ascending, duplicates kept,
a permutation of the input id list; and both orders depend only on ids,
never on scores (pointwise score transforms change nothing) nor on the
arrival order of the vote records. -/
def BuildOrderSpec (legislation_scores : List LegislationScore)
    (cluster_bills : List ℤ) (bill_info : ℤ → Option BillInfo) : Prop :=
  (build_voting_matrix legislation_scores cluster_bills bill_info).member_ids.Sorted
    (· ≤ ·) ∧
  (build_voting_matrix legislation_scores cluster_bills bill_info).member_ids.Nodup ∧
  (∀ x : ℤ,
    x ∈ (build_voting_matrix legislation_scores cluster_bills bill_info).member_ids ↔
    x ∈ (filtered_votes legislation_scores cluster_bills).map (fun v => v.1)) ∧
  (build_voting_matrix legislation_scores cluster_bills bill_info).bill_ids.Sorted
    (· ≤ ·) ∧
  ((build_voting_matrix legislation_scores cluster_bills bill_info).bill_ids).Perm
    cluster_bills ∧
  (∀ f : ℚ → ℚ,
    (build_voting_matrix (mapScores f legislation_scores) cluster_bills
        bill_info).member_ids =
      (build_voting_matrix legislation_scores cluster_bills bill_info).member_ids ∧
    (build_voting_matrix (mapScores f legislation_scores) cluster_bills
        bill_info).bill_ids =
      (build_voting_matrix legislation_scores cluster_bills bill_info).bill_ids) ∧
  (∀ ls₂ : List LegislationScore, legislation_scores.Perm ls₂ →
    (build_voting_matrix ls₂ cluster_bills bill_info).member_ids =
      (build_voting_matrix legislation_scores cluster_bills bill_info).member_ids)

/-- What the full (non-short-circuited) path of
`calculate_vectors_for_cluster` guarantees about `billIds` and the counts:
the result dict carries the `billIds` key, listing the builder's bill ids —
the cluster's item ids sorted ascending (duplicates kept) — and the counts
are the builder's row and column counts. -/
def FullPathBillIds (svd : SvdFun) (legislation_scores : List LegislationScore)
    (cluster_bills : List ℤ) (bill_info : ℤ → Option BillInfo)
    (n_components : ℕ) : Prop :=
  (calculate_vectors_for_cluster svd legislation_scores cluster_bills bill_info
      n_components).billIds =
    some (build_voting_matrix legislation_scores cluster_bills bill_info).bill_ids ∧
  (build_voting_matrix legislation_scores cluster_bills bill_info).bill_ids.Sorted
    (· ≤ ·) ∧
  ((build_voting_matrix legislation_scores cluster_bills bill_info).bill_ids).Perm
    cluster_bills ∧
  (calculate_vectors_for_cluster svd legislation_scores cluster_bills bill_info
      n_components).memberCount =
    (build_voting_matrix legislation_scores cluster_bills bill_info).member_ids.length ∧
  (calculate_vectors_for_cluster svd legislation_scores cluster_bills bill_info
      n_components).billCount =
    (build_voting_matrix legislation_scores cluster_bills bill_info).bill_ids.length


/-!
Matrix-level model of `calculate_cluster_latent_vectors`, for the numerical
claims about the factorization stage.  Dimensions are tracked in the types;
`none` cells again play `np.nan`.  The definitions are polymorphic in a
linear ordered field so that they stay executable; the theorems instantiate
them at `ℝ`, where every matrix genuinely has a singular value
decomposition.
-/

namespace MatrixModel

variable {R : Type} [LinearOrderedField R]

/-- The rows holding a present value in column `j`: what
`np.nanmean(result, axis=0)` averages for that column. -/
def colPresent {m n : ℕ} (A : Matrix (Fin m) (Fin n) (Option R)) (j : Fin n) :
    Finset (Fin m) :=
  Finset.univ.filter (fun i => (A i j).isSome)

/-- The replacement value for absent cells of column `j` (lines 184-190):
mean of present values, `0` for an all-absent column. -/
def colMean {m n : ℕ} (A : Matrix (Fin m) (Fin n) (Option R)) (j : Fin n) : R :=
  if (colPresent A j).card ≠ 0 then
    (∑ i ∈ colPresent A j, (A i j).getD 0) / (colPresent A j).card
  else 0

/-- `impute_missing_values` (lines 178-192) at matrix level. -/
def imputeM {m n : ℕ} (A : Matrix (Fin m) (Fin n) (Option R)) :
    Matrix (Fin m) (Fin n) R :=
  Matrix.of fun i j => (A i j).getD (colMean A j)

/-- `matrix @ np.diag(weights)` (lines 219-220). -/
def weightedMatrix {m n : ℕ} (A : Matrix (Fin m) (Fin n) R) (w : Fin n → R) :
    Matrix (Fin m) (Fin n) R :=
  A * Matrix.diagonal w

/-- `np.mean(weighted_matrix, axis=1)` (line 223). -/
def rowMean {m n : ℕ} (A : Matrix (Fin m) (Fin n) R) (i : Fin m) : R :=
  (∑ j, A i j) / n

/-- The column-weighted, row-centered matrix handed to the SVD
(lines 219-224). -/
def centeredMatrix {m n : ℕ} (A : Matrix (Fin m) (Fin n) R) (w : Fin n → R) :
    Matrix (Fin m) (Fin n) R :=
  Matrix.of fun i j => weightedMatrix A w i j - rowMean (weightedMatrix A w) i

/-- The triple returned by `np.linalg.svd(C, full_matrices=False)` for an
`m x n` input: `U` is `m x K`, `S` has `K` entries, `Vt` is `K x n`.  Numpy
always produces `K = min m n`; that fact is part of `IsFullSVD`. -/
structure SvdData (R : Type) (m n K : ℕ) where
  U : Matrix (Fin m) (Fin K) R
  S : Fin K → R
  Vt : Matrix (Fin K) (Fin n) R

/-- What numpy guarantees of `np.linalg.svd(A, full_matrices=False)`: the
inner dimension is `min m n`, the product reconstructs `A`, the columns of
`U` and the rows of `Vt` are orthonormal, and the singular values come
ordered descending and non-negative. -/
def IsFullSVD {m n K : ℕ} (A : Matrix (Fin m) (Fin n) R)
    (d : SvdData R m n K) : Prop :=
  K = min m n ∧
  A = d.U * Matrix.diagonal d.S * d.Vt ∧
  d.U.transpose * d.U = 1 ∧
  d.Vt * d.Vt.transpose = 1 ∧
  Antitone d.S ∧
  ∀ i, 0 ≤ d.S i

/-- `U[:, :c]` (line 238).  In every pipeline call `c ≤ K`, so the
out-of-range guard value is never read. -/
def truncCols {m K : ℕ} (U : Matrix (Fin m) (Fin K) R) (c : ℕ) :
    Matrix (Fin m) (Fin c) R :=
  Matrix.of fun i j => if h : (j : ℕ) < K then U i ⟨j, h⟩ else 0

/-- `S[:c]` (line 239). -/
def truncVec {K : ℕ} (S : Fin K → R) (c : ℕ) : Fin c → R :=
  fun j => if h : (j : ℕ) < K then S ⟨j, h⟩ else 0

/-- `Vt[:c, :]` (line 240). -/
def truncRows {K n : ℕ} (Vt : Matrix (Fin K) (Fin n) R) (c : ℕ) :
    Matrix (Fin c) (Fin n) R :=
  Matrix.of fun i j => if h : (i : ℕ) < K then Vt ⟨i, h⟩ j else 0

/-- `member_latent_vectors = U_k @ np.diag(S_k)` (line 243). -/
def memberLatentVectors {m n K : ℕ} (d : SvdData R m n K) (c : ℕ) :
    Matrix (Fin m) (Fin c) R :=
  truncCols d.U c * Matrix.diagonal (truncVec d.S c)

/-- `bill_loadings = Vt[:c, :].T` (line 240): one row per item, one column
per retained dimension. -/
def itemLoadings {m n K : ℕ} (d : SvdData R m n K) (c : ℕ) :
    Matrix (Fin n) (Fin c) R :=
  (truncRows d.Vt c).transpose

/-- The singular values as the list numpy returns them. -/
def singularList {m n K : ℕ} (d : SvdData R m n K) : List R :=
  (List.finRange K).map d.S

/-- `np.sum(S**2)` (line 246): over all singular values of the
decomposition, not only the retained ones. -/
def totalVariance {m n K : ℕ} (d : SvdData R m n K) : R :=
  ((singularList d).map (fun s => s ^ 2)).sum

/-- `(S_k**2 / total_variance).tolist() if total_variance > 0 else []`
(lines 247-249), with `S_k = S[:c]`. -/
def explainedVarianceList {m n K : ℕ} (d : SvdData R m n K) (c : ℕ) : List R :=
  if 0 < totalVariance d then
    ((singularList d).take c).map (fun s => s ^ 2 / totalVariance d)
  else []

/-- Fully observed: no absent cell anywhere (no `np.nan` in the voting
matrix). -/
def FullyObserved {m n : ℕ} (A : Matrix (Fin m) (Fin n) (Option R)) : Prop :=
  ∀ i j, (A i j).isSome

end MatrixModel

/-!
Concrete inputs used by witnesses and counterexamples.
-/

/-- Metadata map with no record for any bill. -/
def bi0 : ℤ → Option BillInfo := fun _ => none

/-- One legislation record: member 7 scored bill 1 with raw score 0. -/
def ls0 : List LegislationScore := [⟨1, [⟨7, "A", 0⟩]⟩]

/-- A degenerate SVD routine; the short-circuit paths never consult it. -/
def svd0 : SvdFun := fun _ => ([], [], [])

/-- An SVD routine whose value at the 1 x 1 zero matrix (the centered matrix
of `ls0` on cluster `[1]`) is a genuine decomposition of it. -/
def svd1 : SvdFun := fun _ => ([[1]], [0], [[1]])

/-- A shape-correct stand-in decomposition routine: identity-pattern `U` and
`Vt` of the documented shapes and zero singular values, for every input. -/
def svdShape : SvdFun := fun C =>
  let m := C.length
  let n := (C.headD []).length
  let K := min m n
  ((List.range m).map (fun i => (List.range K).map (fun j => if i = j then (1 : ℚ) else 0)),
    (List.range K).map (fun _ => (0 : ℚ)),
    (List.range K).map (fun i => (List.range n).map (fun j => if i = j then (1 : ℚ) else 0)))

/-- Bill details for two bills, used by extractor examples. -/
def det0 : List BillDetail := [⟨10, "", false, false⟩, ⟨20, "", false, false⟩]

/-- What the explained-variance computation guarantees, given the singular
values of the factorization of a matrix and the retained count `c`: a zero
variance total yields the empty list; otherwise entry `i` is
`S[i]^2 / sum(S_all^2)` with the denominator over all singular values, the
entries are non-increasing and lie in `[0, 1]`, and their sum is at most 1,
with equality exactly when every discarded singular value is zero. -/
def EvrSpec (m n K : ℕ) (d : MatrixModel.SvdData ℝ m n K) (c : ℕ) : Prop :=
  (MatrixModel.totalVariance d = 0 → MatrixModel.explainedVarianceList d c = []) ∧
  (0 < MatrixModel.totalVariance d →
    (∀ i, i < (MatrixModel.explainedVarianceList d c).length →
      (MatrixModel.explainedVarianceList d c).getD i 0 =
        ((MatrixModel.singularList d).getD i 0) ^ 2 / MatrixModel.totalVariance d) ∧
    (MatrixModel.explainedVarianceList d c).Pairwise (fun a b => b ≤ a) ∧
    (∀ x ∈ MatrixModel.explainedVarianceList d c, 0 ≤ x ∧ x ≤ 1) ∧
    (MatrixModel.explainedVarianceList d c).sum ≤ 1 ∧
    ((MatrixModel.explainedVarianceList d c).sum = 1 ↔
      ∀ s ∈ (MatrixModel.singularList d).drop c, s = 0))

/-- A fully observed 1 x 1 voting matrix. -/
def A1 (R : Type) [LinearOrderedField R] : Matrix (Fin 1) (Fin 1) (Option R) :=
  Matrix.of fun _ _ => some 0

/-- Weight vector for `A1`. -/
def w1 (R : Type) [LinearOrderedField R] : Fin 1 → R := fun _ => 1

/-- An exact decomposition of the 1 x 1 zero matrix. -/
def d1 (R : Type) [LinearOrderedField R] : MatrixModel.SvdData R 1 1 1 :=
  ⟨Matrix.of fun _ _ => 1, fun _ => 0, Matrix.of fun _ _ => 1⟩

/-- A fully observed 2 x 4 voting matrix whose rows already have mean zero:
row one is `(1, 1, -1, -1)`, row two is zero. -/
def A0 (R : Type) [LinearOrderedField R] : Matrix (Fin 2) (Fin 4) (Option R) :=
  Matrix.of fun i j => some (!![1, 1, -1, -1; 0, 0, 0, 0] i j)

/-- All-ones weight vector for `A0`. -/
def w0 (R : Type) [LinearOrderedField R] : Fin 4 → R := fun _ => 1

/-- An exact reduced SVD of the centered matrix of `A0` with singular values
`(2, 0)`: the second singular value vanishes, so one retained dimension
already captures all variance. -/
def d0 (R : Type) [LinearOrderedField R] : MatrixModel.SvdData R 2 4 2 :=
  ⟨1,
    fun i => if (i : ℕ) = 0 then 2 else 0,
    Matrix.of fun i j =>
      !![1/2, 1/2, -1/2, -1/2; 1/2, -1/2, 1/2, -1/2] i j⟩

/-!
Claim theorems and supporting lemmas.
-/

/-- C9: `get_bill_weight` is total and returns exactly one of 1.0, 0.8, 0.6;
`passed = true` always yields 1.0 regardless of `deliberation_completed`;
0.8 when neither flag holds; 0.6 when deliberation completed without
passage. -/
theorem get_bill_weight_spec (info : Option BillInfo) (title : String) :
    (get_bill_weight info title = 1 ∨ get_bill_weight info title = 4/5 ∨
      get_bill_weight info title = 3/5) ∧
    ((info.map (fun b => b.passed)).getD false = true →
      get_bill_weight info title = 1) ∧
    ((info.map (fun b => b.passed)).getD false = false →
      (info.map (fun b => b.deliberation_completed)).getD false = false →
      get_bill_weight info title = 4/5) ∧
    ((info.map (fun b => b.passed)).getD false = false →
      (info.map (fun b => b.deliberation_completed)).getD false = true →
      get_bill_weight info title = 3/5) := by
  rcases info with _ | ⟨p, dc, t, de⟩
  · simp [get_bill_weight]
  · cases p <;> cases dc <;> simp [get_bill_weight]

/-- C5 counterexample: with `max_score == min_score` the call fails with
`ZeroDivisionError` (Python float division by zero), not with the
`ConfigurationError` the claim names — no such class exists in the code. -/
theorem normalize_score_zero_division_counterexample :
    normalize_score 0 5 5 = Except.error PyError.zeroDivisionError ∧
    normalize_score 0 5 5 ≠ Except.error PyError.configurationError := by
  constructor <;> simp [normalize_score]

/-- C5 amended: for `max_score = min_score` the call fails by raising
`ZeroDivisionError` (it does not silently produce an infinite value, but the
exception is not the `ConfigurationError` of the claim, which the code never
defines); otherwise it returns the affine value
`2*(score - min)/(max - min) - 1` with no clamping, so a score above
`max_score` maps strictly above 1. -/
theorem normalize_score_spec (score min_score max_score : ℚ) :
    (max_score - min_score = 0 →
      normalize_score score min_score max_score =
        Except.error PyError.zeroDivisionError) ∧
    (max_score - min_score ≠ 0 →
      normalize_score score min_score max_score =
        Except.ok (2 * (score - min_score) / (max_score - min_score) - 1)) ∧
    (min_score < max_score → max_score < score →
      ∀ r, normalize_score score min_score max_score = Except.ok r → 1 < r) := by
  refine ⟨fun h => by simp [normalize_score, h],
    fun h => by simp [normalize_score, h], fun hlt hs r hr => ?_⟩
  have hpos : 0 < max_score - min_score := sub_pos.mpr hlt
  rw [normalize_score, if_neg (ne_of_gt hpos)] at hr
  have hr2 : 2 * (score - min_score) / (max_score - min_score) - 1 = r :=
    congrArg (fun e => (e.toOption).getD 0) hr
  have hx : 1 < (score - min_score) / (max_score - min_score) :=
    (one_lt_div hpos).mpr (by linarith)
  have h2 : 2 * (score - min_score) / (max_score - min_score) =
      2 * ((score - min_score) / (max_score - min_score)) := by ring
  linarith [hr2, h2, hx]

/-- `getD` through `List.map` at an in-range index. -/
theorem getD_map_lt {α β : Type} (f : α → β) (l : List α) (i : ℕ)
    (d : β) (d' : α) (h : i < l.length) :
    (l.map f).getD i d = f (l.getD i d') := by
  rw [List.getD_eq_getElem _ _ (by simpa using h), List.getElem_map,
    List.getD_eq_getElem _ _ h]

/-- `getD` of the mapped index range at an in-range index. -/
theorem getD_map_range {β : Type} (g : ℕ → β) (n j : ℕ) (d : β) (h : j < n) :
    ((List.range n).map g).getD j d = g j := by
  rw [List.getD_eq_getElem _ _ (by simpa using h), List.getElem_map,
    List.getElem_range]

/-- C4: `impute_missing_values` returns a matrix of the same shape, keeps
every present cell, turns a formerly absent cell of a column with present
values into that column's present-value mean, and turns every cell of a
column with no present value into 0.  No absent marker can remain: the
output cells are plain rationals.  The source operates on `matrix.copy()`,
so the caller's matrix is untouched. -/
theorem impute_missing_values_spec (matrix : List (List (Option ℚ))) :
    (impute_missing_values matrix).length = matrix.length ∧
    (∀ i, ((impute_missing_values matrix).getD i []).length =
      (matrix.getD i []).length) ∧
    (∀ i j v, (matrix.getD i []).getD j none = some v →
      ((impute_missing_values matrix).getD i []).getD j 0 = v) ∧
    (∀ i j, j < (matrix.getD i []).length →
      (matrix.getD i []).getD j none = none →
      ((impute_missing_values matrix).getD i []).getD j 0 =
        (if column_present matrix j = [] then 0
          else (column_present matrix j).sum / (column_present matrix j).length)) := by
  have hrow : ∀ i, (impute_missing_values matrix).getD i [] =
      (List.range ((matrix.getD i []).length)).map
        (fun j => ((matrix.getD i []).getD j none).getD (column_mean matrix j)) := by
    intro i
    rcases lt_or_ge i matrix.length with h | h
    · exact getD_map_lt _ matrix i [] [] h
    · rw [List.getD_eq_default _ _ (by simpa [impute_missing_values] using h),
        List.getD_eq_default _ _ h]
      simp
  refine ⟨by simp [impute_missing_values], fun i => by rw [hrow i]; simp, ?_, ?_⟩
  · intro i j v hv
    have hj : j < (matrix.getD i []).length := by
      by_contra hge
      rw [List.getD_eq_default _ _ (by omega)] at hv
      exact Option.noConfusion hv
    rw [hrow i, getD_map_range _ _ _ _ hj, hv]
    rfl
  · intro i j hj habs
    rw [hrow i, getD_map_range _ _ _ _ hj, habs]
    simp [column_mean]

/-- C10: a bill id in the cluster with no metadata record does not make the
builder fail: `bill_info.get(bill_id, {})` yields the empty dict, so the bill
gets weight 0.8 = 4/5 and a detail record with empty title and both status
flags false. -/
theorem missing_metadata_defaults (legislation_scores : List LegislationScore)
    (cluster_bills : List ℤ) (bill_info : ℤ → Option BillInfo) (j : ℕ)
    (hj : j <
      (build_voting_matrix legislation_scores cluster_bills bill_info).bill_ids.length)
    (hnone : bill_info
      ((build_voting_matrix legislation_scores cluster_bills bill_info).bill_ids.getD j 0) =
        none) :
    (build_voting_matrix legislation_scores cluster_bills bill_info).weights.getD j 0 =
      4/5 ∧
    (build_voting_matrix legislation_scores cluster_bills bill_info).bill_details.getD j
        ⟨0, "", false, false⟩ =
      ⟨(build_voting_matrix legislation_scores cluster_bills bill_info).bill_ids.getD j 0,
        "", false, false⟩ := by
  by_cases hc : sorted_member_ids legislation_scores cluster_bills = [] ∨
      sorted_bill_ids cluster_bills = []
  · rw [build_voting_matrix] at hj
    simp only [if_pos hc] at hj
    simp at hj
  · rw [build_voting_matrix] at hj hnone ⊢
    simp only [if_neg hc] at hj hnone ⊢
    have hjL : j < (sorted_bill_ids cluster_bills).length := by simpa using hj
    rw [List.getD_eq_getElem _ _ hjL] at hnone
    constructor
    · rw [getD_map_lt _ _ _ _ 0 hjL, List.getD_eq_getElem _ _ hjL, hnone]
      simp [get_bill_weight]
    · rw [getD_map_lt _ _ _ _ 0 hjL, List.getD_eq_getElem _ _ hjL, hnone]
      simp

/-- C10 witness: cluster `[1]` with the empty metadata map: bill 1 gets
weight 4/5 and an all-default detail record. -/
theorem missing_metadata_defaults_witness :
    (build_voting_matrix ls0 [1] bi0).weights.getD 0 0 = 4/5 ∧
    (build_voting_matrix ls0 [1] bi0).bill_details.getD 0 ⟨0, "", false, false⟩ =
      ⟨(build_voting_matrix ls0 [1] bi0).bill_ids.getD 0 0, "", false, false⟩ :=
  missing_metadata_defaults ls0 [1] bi0 0 (by decide) (by decide)

/-- The builder's result on the non-degenerate path, spelled out. -/
theorem build_voting_matrix_of_nonempty (legislation_scores : List LegislationScore)
    (cluster_bills : List ℤ) (bill_info : ℤ → Option BillInfo)
    (hm : sorted_member_ids legislation_scores cluster_bills ≠ [])
    (hb : sorted_bill_ids cluster_bills ≠ []) :
    build_voting_matrix legislation_scores cluster_bills bill_info =
      ⟨(sorted_member_ids legislation_scores cluster_bills).map (fun m =>
          (sorted_bill_ids cluster_bills).map
            (fun b => member_score legislation_scores cluster_bills m b)),
        sorted_member_ids legislation_scores cluster_bills,
        sorted_bill_ids cluster_bills,
        (sorted_bill_ids cluster_bills).map (fun b =>
          get_bill_weight (bill_info b) (((bill_info b).map (fun x => x.title)).getD "")),
        (sorted_bill_ids cluster_bills).map (fun b =>
          (⟨b, ((bill_info b).map (fun x => x.title)).getD "",
            ((bill_info b).map (fun x => x.passed)).getD false,
            ((bill_info b).map (fun x => x.deliberation_completed)).getD false⟩ :
            BillDetail))⟩ := by
  rw [build_voting_matrix]
  simp [hm, hb]

/-- C7: an empty cluster (and, more generally, an empty member set or an
empty item set) short-circuits: the orchestrator raises nothing (it is a
total function) and returns the zeroed result of lines 317-325. -/
theorem empty_cluster_result_spec (svd : SvdFun)
    (legislation_scores : List LegislationScore) (cluster_bills : List ℤ)
    (bill_info : ℤ → Option BillInfo) (n_components : ℕ)
    (h : cluster_bills = [] ∨
      (build_voting_matrix legislation_scores cluster_bills bill_info).member_ids = [] ∨
      (build_voting_matrix legislation_scores cluster_bills bill_info).bill_ids = []) :
    (calculate_vectors_for_cluster svd legislation_scores cluster_bills bill_info
        n_components) =
      ⟨[], [], [], [], 0, 0, 0, none⟩ := by
  have hc : sorted_member_ids legislation_scores cluster_bills = [] ∨
      sorted_bill_ids cluster_bills = [] := by
    by_cases hcc : sorted_member_ids legislation_scores cluster_bills = [] ∨
        sorted_bill_ids cluster_bills = []
    · exact hcc
    · rcases h with h | h | h
      · exact Or.inr (by rw [h]; rfl)
      · rw [build_voting_matrix_of_nonempty _ _ _ (not_or.mp hcc).1 (not_or.mp hcc).2] at h
        exact absurd h (not_or.mp hcc).1
      · rw [build_voting_matrix_of_nonempty _ _ _ (not_or.mp hcc).1 (not_or.mp hcc).2] at h
        exact absurd h (not_or.mp hcc).2
  have hb : build_voting_matrix legislation_scores cluster_bills bill_info =
      ⟨[], [], [], [], []⟩ := by
    rw [build_voting_matrix]
    simp only [if_pos hc]
  rw [calculate_vectors_for_cluster, hb]
  rfl

/-- C7 witness: the empty cluster, with a degenerate decomposition routine
that the short-circuit never consults. -/
theorem empty_cluster_result_spec_witness :
    calculate_vectors_for_cluster svd0 [] [] bi0 3 = ⟨[], [], [], [], 0, 0, 0, none⟩ :=
  empty_cluster_result_spec svd0 [] [] bi0 3 (Or.inl rfl)

/-- C8 counterexample: on the short-circuited empty path the result dict has
no `billIds` key at all, so it does not list the cluster's item ids. -/
theorem billIds_missing_on_short_circuit :
    (calculate_vectors_for_cluster svd0 [] [] bi0 3).billIds = none ∧
    (calculate_vectors_for_cluster svd0 [] [] bi0 3).billIds ≠
      some (sorted_bill_ids []) := by
  decide

/-- The size of the voting matrix the builder assembles. -/
theorem matrix_size_build (sm sb : List ℤ) (g : ℤ → ℤ → Option ℚ) :
    matrix_size (sm.map (fun m => sb.map (fun b => g m b))) =
      sm.length * sb.length := by
  simp [matrix_size, List.map_map, Function.comp_def, List.map_const',
    List.sum_replicate, smul_eq_mul]

/-- Row count of the centered pipeline matrix. -/
theorem pipeline_centered_length (matrix : List (List (Option ℚ))) (weights : List ℚ) :
    (pipeline_centered matrix weights).length = matrix.length := by
  simp [pipeline_centered, center_rows, apply_weights, impute_missing_values]

/-- First-row length of the centered pipeline matrix. -/
theorem pipeline_centered_head_length (matrix : List (List (Option ℚ)))
    (weights : List ℚ) (h : matrix ≠ []) :
    ((pipeline_centered matrix weights).headD []).length =
      min ((matrix.headD []).length) weights.length := by
  obtain ⟨r, rest, rfl⟩ := List.exists_cons_of_ne_nil h
  simp [pipeline_centered, center_rows, apply_weights, impute_missing_values,
    List.length_zipWith]

/-- The factorizer on the non-degenerate path, spelled out. -/
theorem calculate_cluster_latent_vectors_of_pos (svd : SvdFun)
    (voting_matrix : List (List (Option ℚ))) (weights : List ℚ) (n_components : ℕ)
    (h1 : ¬matrix_size voting_matrix = 0)
    (h2 : ¬min n_components
      (min (pipeline_centered voting_matrix weights).length
        ((pipeline_centered voting_matrix weights).headD []).length) = 0) :
    calculate_cluster_latent_vectors svd voting_matrix weights n_components =
      ⟨((svd (pipeline_centered voting_matrix weights)).1.map (fun row =>
          row.take (min n_components
            (min (pipeline_centered voting_matrix weights).length
              ((pipeline_centered voting_matrix weights).headD []).length)))).map
          (fun row => row.zipWith (· * ·)
            ((svd (pipeline_centered voting_matrix weights)).2.1.take
              (min n_components
                (min (pipeline_centered voting_matrix weights).length
                  ((pipeline_centered voting_matrix weights).headD []).length)))),
        ((svd (pipeline_centered voting_matrix weights)).2.2.take
          (min n_components
            (min (pipeline_centered voting_matrix weights).length
              ((pipeline_centered voting_matrix weights).headD []).length))).transpose,
        (svd (pipeline_centered voting_matrix weights)).2.1.take
          (min n_components
            (min (pipeline_centered voting_matrix weights).length
              ((pipeline_centered voting_matrix weights).headD []).length)),
        if 0 < (((svd (pipeline_centered voting_matrix weights)).2.1.map
            (fun s => s ^ 2)).sum) then
          ((svd (pipeline_centered voting_matrix weights)).2.1.take
            (min n_components
              (min (pipeline_centered voting_matrix weights).length
                ((pipeline_centered voting_matrix weights).headD []).length))).map
            (fun s => s ^ 2 /
              (((svd (pipeline_centered voting_matrix weights)).2.1.map
                (fun s => s ^ 2)).sum))
        else []⟩ := by
  rw [calculate_cluster_latent_vectors]
  simp only [if_neg h1, if_neg h2]

/-- A latent-vector matrix with at least one row of positive length has
positive size. -/
theorem matrix_size_latent_ne_zero (U : List (List ℚ)) (S : List ℚ) (mc : ℕ)
    (hU : U ≠ []) (hr : ∀ r ∈ U, mc ≤ r.length) (hS : mc ≤ S.length)
    (hmc : 1 ≤ mc) :
    ¬matrix_size ((U.map (fun row => row.take mc)).map
      (fun row => row.zipWith (· * ·) (S.take mc))) = 0 := by
  obtain ⟨r0, rest, rfl⟩ := List.exists_cons_of_ne_nil hU
  have h0 := hr r0 (List.mem_cons_self r0 rest)
  simp only [matrix_size, List.map_cons, List.map_map, List.sum_cons,
    List.length_zipWith, List.length_take]
  omega

/-- The orchestrator on the full path, spelled out. -/
theorem calculate_vectors_full_path (svd : SvdFun)
    (legislation_scores : List LegislationScore) (cluster_bills : List ℤ)
    (bill_info : ℤ → Option BillInfo) (n_components : ℕ)
    (h1 : ¬matrix_size
      (build_voting_matrix legislation_scores cluster_bills bill_info).matrix = 0)
    (h2 : ¬matrix_size (calculate_cluster_latent_vectors svd
      (build_voting_matrix legislation_scores cluster_bills bill_info).matrix
      (build_voting_matrix legislation_scores cluster_bills bill_info).weights
      n_components).member_latent = 0) :
    calculate_vectors_for_cluster svd legislation_scores cluster_bills bill_info
        n_components =
      ⟨(build_voting_matrix legislation_scores cluster_bills bill_info).member_ids.zip
          (calculate_cluster_latent_vectors svd
            (build_voting_matrix legislation_scores cluster_bills bill_info).matrix
            (build_voting_matrix legislation_scores cluster_bills bill_info).weights
            n_components).member_latent,
        if 0 < matrix_size (calculate_cluster_latent_vectors svd
            (build_voting_matrix legislation_scores cluster_bills bill_info).matrix
            (build_voting_matrix legislation_scores cluster_bills bill_info).weights
            n_components).bill_loadings then
          (calculate_cluster_latent_vectors svd
            (build_voting_matrix legislation_scores cluster_bills bill_info).matrix
            (build_voting_matrix legislation_scores cluster_bills bill_info).weights
            n_components).bill_loadings
        else [],
        find_representative_bills
          (calculate_cluster_latent_vectors svd
            (build_voting_matrix legislation_scores cluster_bills bill_info).matrix
            (build_voting_matrix legislation_scores cluster_bills bill_info).weights
            n_components).bill_loadings
          (build_voting_matrix legislation_scores cluster_bills bill_info).bill_ids
          (build_voting_matrix legislation_scores cluster_bills bill_info).bill_details 3,
        (calculate_cluster_latent_vectors svd
          (build_voting_matrix legislation_scores cluster_bills bill_info).matrix
          (build_voting_matrix legislation_scores cluster_bills bill_info).weights
          n_components).explained_variance,
        ((calculate_cluster_latent_vectors svd
          (build_voting_matrix legislation_scores cluster_bills bill_info).matrix
          (build_voting_matrix legislation_scores cluster_bills bill_info).weights
          n_components).member_latent.headD []).length,
        (build_voting_matrix legislation_scores cluster_bills bill_info).member_ids.length,
        (build_voting_matrix legislation_scores cluster_bills bill_info).bill_ids.length,
        some (build_voting_matrix legislation_scores cluster_bills bill_info).bill_ids⟩ := by
  rw [calculate_vectors_for_cluster]
  simp only [if_neg h1, if_neg h2]

/-- `svdShape` satisfies numpy's shape contract at every input. -/
theorem svdShape_well_shaped : WellShapedSvd svdShape := by
  refine fun C => ⟨by simp [svdShape], fun r hr => ?_, by simp [svdShape]⟩
  simp only [svdShape, List.mem_map, List.mem_range] at hr
  obtain ⟨i, _, rfl⟩ := hr
  simp

/-- C8 amended: `billIds` is present exactly on the non-short-circuited path.
For a shape-correct decomposition routine, a non-empty member set, a
non-empty item set and at least one requested component, the result carries
`billIds = bill_ids` of the builder — the cluster's item ids sorted ascending
(duplicates kept) — and the counts are the builder's row and column counts;
the short-circuited paths omit the key (see the counterexample). -/
theorem billIds_on_full_path (svd : SvdFun)
    (legislation_scores : List LegislationScore) (cluster_bills : List ℤ)
    (bill_info : ℤ → Option BillInfo) (n_components : ℕ)
    (hsvd : WellShapedSvd svd)
    (hm : (build_voting_matrix legislation_scores cluster_bills bill_info).member_ids ≠ [])
    (hb : (build_voting_matrix legislation_scores cluster_bills bill_info).bill_ids ≠ [])
    (hk : 1 ≤ n_components) :
    FullPathBillIds svd legislation_scores cluster_bills bill_info n_components := by
  by_cases h0 : sorted_member_ids legislation_scores cluster_bills = [] ∨
      sorted_bill_ids cluster_bills = []
  · exfalso
    apply hm
    rw [build_voting_matrix]
    simp only [if_pos h0]
  · obtain ⟨hmm, hbb⟩ := not_or.mp h0
    have hbuild := build_voting_matrix_of_nonempty legislation_scores cluster_bills
      bill_info hmm hbb
    have hmat : (build_voting_matrix legislation_scores cluster_bills bill_info).matrix =
        (sorted_member_ids legislation_scores cluster_bills).map (fun m =>
          (sorted_bill_ids cluster_bills).map
            (fun b => member_score legislation_scores cluster_bills m b)) := by
      rw [hbuild]
    have hwts : (build_voting_matrix legislation_scores cluster_bills bill_info).weights =
        (sorted_bill_ids cluster_bills).map (fun b =>
          get_bill_weight (bill_info b)
            (((bill_info b).map (fun x => x.title)).getD "")) := by
      rw [hbuild]
    have hmem :
        (build_voting_matrix legislation_scores cluster_bills bill_info).member_ids =
          sorted_member_ids legislation_scores cluster_bills := by
      rw [hbuild]
    have hbil : (build_voting_matrix legislation_scores cluster_bills bill_info).bill_ids =
        sorted_bill_ids cluster_bills := by
      rw [hbuild]
    have hM : 1 ≤ (sorted_member_ids legislation_scores cluster_bills).length :=
      List.length_pos.mpr hmm
    have hN : 1 ≤ (sorted_bill_ids cluster_bills).length := List.length_pos.mpr hbb
    have hsize : ¬matrix_size
        (build_voting_matrix legislation_scores cluster_bills bill_info).matrix = 0 := by
      rw [hmat, matrix_size_build]
      exact Nat.mul_ne_zero (by omega) (by omega)
    have hClen : (pipeline_centered
        (build_voting_matrix legislation_scores cluster_bills bill_info).matrix
        (build_voting_matrix legislation_scores cluster_bills bill_info).weights).length =
        (sorted_member_ids legislation_scores cluster_bills).length := by
      rw [pipeline_centered_length, hmat, List.length_map]
    have hmatne :
        (build_voting_matrix legislation_scores cluster_bills bill_info).matrix ≠ [] := by
      rw [hmat]
      simp only [ne_eq, List.map_eq_nil_iff]
      exact hmm
    have hChead : ((pipeline_centered
        (build_voting_matrix legislation_scores cluster_bills bill_info).matrix
        (build_voting_matrix legislation_scores cluster_bills bill_info).weights).headD
          []).length =
        (sorted_bill_ids cluster_bills).length := by
      rw [pipeline_centered_head_length _ _ hmatne, hmat, hwts]
      obtain ⟨a, sm', ha⟩ :=
        List.exists_cons_of_ne_nil hmm
      rw [ha]
      simp
    have hmc : ¬min n_components
        (min (pipeline_centered
          (build_voting_matrix legislation_scores cluster_bills bill_info).matrix
          (build_voting_matrix legislation_scores cluster_bills bill_info).weights).length
          ((pipeline_centered
            (build_voting_matrix legislation_scores cluster_bills bill_info).matrix
            (build_voting_matrix legislation_scores cluster_bills
              bill_info).weights).headD []).length) = 0 := by
      rw [hClen, hChead]
      omega
    have hfac := calculate_cluster_latent_vectors_of_pos svd
      (build_voting_matrix legislation_scores cluster_bills bill_info).matrix
      (build_voting_matrix legislation_scores cluster_bills bill_info).weights
      n_components hsize hmc
    obtain ⟨hUlen, hUr, hSlen⟩ := hsvd (pipeline_centered
      (build_voting_matrix legislation_scores cluster_bills bill_info).matrix
      (build_voting_matrix legislation_scores cluster_bills bill_info).weights)
    have hlat : ¬matrix_size (calculate_cluster_latent_vectors svd
        (build_voting_matrix legislation_scores cluster_bills bill_info).matrix
        (build_voting_matrix legislation_scores cluster_bills bill_info).weights
        n_components).member_latent = 0 := by
      rw [hfac]
      apply matrix_size_latent_ne_zero
      · intro hnil
        rw [hnil] at hUlen
        rw [hClen] at hUlen
        simp at hUlen
        omega
      · intro r hrr
        have := hUr r hrr
        rw [hClen, hChead] at this
        omega
      · rw [hSlen, hClen, hChead]
        omega
      · rw [hClen, hChead]
        omega
    have hfull := calculate_vectors_full_path svd legislation_scores cluster_bills
      bill_info n_components hsize hlat
    refine ⟨by rw [hfull], ?_, ?_, by rw [hfull], by rw [hfull]⟩
    · rw [hbil]
      exact List.sorted_insertionSort _ _
    · rw [hbil]
      exact List.perm_insertionSort _ _

/-- C8 witness: one member, one bill, three requested components, and a
shape-correct decomposition routine: the full path is taken and `billIds`
is present. -/
theorem billIds_on_full_path_witness : FullPathBillIds svdShape ls0 [1] bi0 3 :=
  billIds_on_full_path svdShape ls0 [1] bi0 3 svdShape_well_shaped (by decide)
    (by decide) (by decide)

/-- C6 counterexample: `sorted(cluster_bills)` keeps duplicates, so an item
id listed twice in `itemIdsInCluster` produces two columns, not one. -/
theorem build_voting_matrix_duplicate_columns :
    (build_voting_matrix ls0 [1, 1] bi0).bill_ids = [1, 1] ∧
    ((build_voting_matrix ls0 [1, 1] bi0).matrix.headD []).length = 2 ∧
    (build_voting_matrix ls0 [1, 1] bi0).bill_ids ≠
      ((build_voting_matrix ls0 [1, 1] bi0).bill_ids).dedup := by
  decide

/-- The member-id projection of the filtered votes ignores scores. -/
theorem filtered_votes_mapScores (f : ℚ → ℚ)
    (legislation_scores : List LegislationScore) (cluster_bills : List ℤ) :
    (filtered_votes (mapScores f legislation_scores) cluster_bills).map
        (fun v => v.1) =
      (filtered_votes legislation_scores cluster_bills).map (fun v => v.1) := by
  simp only [filtered_votes, mapScores, List.filter_map, List.map_flatMap,
    List.flatMap_map, List.map_map]
  rfl

/-- Permuting the vote records permutes the filtered vote triples. -/
theorem filtered_votes_perm (legislation_scores ls₂ : List LegislationScore)
    (cluster_bills : List ℤ) (h : legislation_scores.Perm ls₂) :
    (filtered_votes legislation_scores cluster_bills).Perm
      (filtered_votes ls₂ cluster_bills) := by
  unfold filtered_votes
  rw [List.flatMap_def, List.flatMap_def]
  exact ((List.Perm.filter _ h).map _).flatten

/-- Sorting after deduplication is invariant under permutation of the
underlying list. -/
theorem insertionSort_dedup_perm_invariant (l₁ l₂ : List ℤ) (h : l₁.Perm l₂) :
    l₁.dedup.insertionSort (· ≤ ·) = l₂.dedup.insertionSort (· ≤ ·) := by
  apply List.eq_of_perm_of_sorted _ (List.sorted_insertionSort _ _)
    (List.sorted_insertionSort _ _)
  exact ((List.perm_insertionSort _ _).trans (h.dedup)).trans
    (List.perm_insertionSort _ _).symm

/-- C6 amended: on the non-degenerate path the rows are the distinct member
ids with at least one filtered vote, sorted ascending; the columns are
`sorted(cluster_bills)` with duplicates kept (a sorted permutation of the
input id list, deduplicated only if the input is); and both orders are
invariant under score transforms and record arrival order. -/
theorem build_voting_matrix_spec (legislation_scores : List LegislationScore)
    (cluster_bills : List ℤ) (bill_info : ℤ → Option BillInfo)
    (hm : sorted_member_ids legislation_scores cluster_bills ≠ [])
    (hb : cluster_bills ≠ []) :
    BuildOrderSpec legislation_scores cluster_bills bill_info := by
  have hbb : sorted_bill_ids cluster_bills ≠ [] := by
    intro h0
    apply hb
    have := (List.perm_insertionSort (· ≤ ·) cluster_bills).symm
    rw [sorted_bill_ids] at h0
    rw [h0] at this
    exact List.Perm.eq_nil this
  have hbuild := build_voting_matrix_of_nonempty legislation_scores cluster_bills
    bill_info hm hbb
  have hmem :
      (build_voting_matrix legislation_scores cluster_bills bill_info).member_ids =
        sorted_member_ids legislation_scores cluster_bills := by rw [hbuild]
  have hbil :
      (build_voting_matrix legislation_scores cluster_bills bill_info).bill_ids =
        sorted_bill_ids cluster_bills := by rw [hbuild]
  refine ⟨?_, ?_, ?_, ?_, ?_, ?_, ?_⟩
  · rw [hmem, sorted_member_ids]
    exact List.sorted_insertionSort _ _
  · rw [hmem, sorted_member_ids]
    exact (List.nodup_dedup _).perm (List.perm_insertionSort _ _).symm
  · intro x
    rw [hmem, sorted_member_ids,
      (List.perm_insertionSort _ _).mem_iff, List.mem_dedup]
  · rw [hbil, sorted_bill_ids]
    exact List.sorted_insertionSort _ _
  · rw [hbil, sorted_bill_ids]
    exact List.perm_insertionSort _ _
  · intro f
    have hsm : sorted_member_ids (mapScores f legislation_scores) cluster_bills =
        sorted_member_ids legislation_scores cluster_bills := by
      rw [sorted_member_ids, sorted_member_ids, filtered_votes_mapScores]
    have hm2 : sorted_member_ids (mapScores f legislation_scores) cluster_bills ≠ [] := by
      rw [hsm]; exact hm
    have hbuild2 := build_voting_matrix_of_nonempty (mapScores f legislation_scores)
      cluster_bills bill_info hm2 hbb
    constructor
    · rw [hbuild2, hmem]
      exact hsm
    · rw [hbuild2, hbil]
  · intro ls₂ hperm
    have hsm : sorted_member_ids ls₂ cluster_bills =
        sorted_member_ids legislation_scores cluster_bills := by
      rw [sorted_member_ids, sorted_member_ids]
      exact insertionSort_dedup_perm_invariant _ _
        ((filtered_votes_perm _ _ cluster_bills hperm).map _).symm
    have hm2 : sorted_member_ids ls₂ cluster_bills ≠ [] := by
      rw [hsm]; exact hm
    have hbuild2 := build_voting_matrix_of_nonempty ls₂ cluster_bills bill_info hm2 hbb
    rw [hbuild2, hmem]
    exact hsm

/-- C6 witness: one member, one bill. -/
theorem build_voting_matrix_spec_witness : BuildOrderSpec ls0 [1] bi0 :=
  build_voting_matrix_spec ls0 [1] bi0 (by decide) (by decide)

/-- The argsort refinement has one index per entry. -/
theorem argsort_length (v : List ℚ) : (argsort v).length = v.length := by
  rw [argsort, (List.perm_insertionSort _ _).length_eq, List.length_range]

/-- The argsort refinement is ordered by the tie-breaking total order. -/
theorem argsort_pairwise (v : List ℚ) : (argsort v).Pairwise (arg_rel v) :=
  List.sorted_insertionSort _ _

/-- The executable argsort refinement meets numpy's documented contract: a
permutation of the index range, ascending by value. -/
theorem argsort_valid (v : List ℚ) : IsValidArgsort v (argsort v) := by
  refine ⟨List.perm_insertionSort _ _, ?_⟩
  refine (argsort_pairwise v).imp ?_
  intro i j hij
  rcases hij with h | ⟨he, _⟩
  · exact le_of_lt h
  · exact le_of_eq he

/-- The selection discipline every valid argsort order induces through
`[-top_n:][::-1]`, for at least one requested entry. -/
theorem top_selection_spec (v : List ℚ) (idx : List ℕ) (top_n : ℕ)
    (hn : 1 ≤ top_n) (hvalid : IsValidArgsort v idx) :
    TopSelectionSpec v idx top_n := by
  obtain ⟨hperm, hsorted⟩ := hvalid
  have hn0 : top_n ≠ 0 := by omega
  have hlen : idx.length = v.length := by rw [hperm.length_eq, List.length_range]
  have hsl : pySliceLast idx top_n = idx.drop (idx.length - top_n) := by
    rw [pySliceLast, if_neg hn0]
  refine ⟨?_, ?_, ?_⟩
  · rw [hsl, List.length_reverse, List.length_drop, hlen]
    omega
  · rw [hsl]
    exact List.pairwise_reverse.mpr
      (hsorted.sublist (List.drop_sublist (idx.length - top_n) idx))
  · intro i hi j hjlen hjnot
    rw [hsl, List.mem_reverse] at hi hjnot
    have hjidx : j ∈ idx := hperm.mem_iff.mpr (List.mem_range.mpr hjlen)
    have hsplit : idx.take (idx.length - top_n) ++ idx.drop (idx.length - top_n) =
        idx := List.take_append_drop _ _
    have hp3 : (idx.take (idx.length - top_n) ++
        idx.drop (idx.length - top_n)).Pairwise
        (fun a b => v.getD a 0 ≤ v.getD b 0) := by
      rw [hsplit]
      exact hsorted
    have hcross := (List.pairwise_append.mp hp3).2.2
    have hj' : j ∈ idx.take (idx.length - top_n) := by
      rcases List.mem_append.mp (by rw [hsplit]; exact hjidx) with h | h
      · exact h
      · exact absurd h hjnot
    exact hcross j hj' i hi

/-- C3 counterexample: with `topN = 0` the Python slice `[-0:]` is the whole
array, so the per-dimension output holds every item — its length is not
bounded by `topN`. -/
theorem representative_bills_topn_zero_counterexample :
    ((find_representative_bills [[1], [2]] [10, 20] det0 0).headD []).length = 2 ∧
    ¬((find_representative_bills [[1], [2]] [10, 20] det0 0).headD []).length ≤ 0 := by
  decide

/-- C3 amended: for `topN ≥ 1` each dimension's output has at most `topN`
entries and is sorted by non-increasing absolute loading, and the index
selection satisfies `TopSelectionSpec` for every index order consistent with
numpy's argsort contract.  The original tie-break (later id-sorted item
preferred on equal absolute loadings) would require a stable sort, which
`np.argsort`'s default `kind` is documented not to be, so no tie order is
asserted.  (For `topN = 0` the `[-0:]` slice keeps every item instead — see
the counterexample.) -/
theorem representative_bills_spec (bill_loadings : List (List ℚ))
    (bill_ids : List ℤ) (bill_details : List BillDetail) (top_n : ℕ)
    (hn : 1 ≤ top_n) :
    ExtractorSpec bill_loadings bill_ids bill_details top_n := by
  constructor
  · intro dimList hmem
    rw [find_representative_bills] at hmem
    by_cases hz : matrix_size bill_loadings = 0
    · rw [if_pos hz] at hmem
      exact absurd hmem (List.not_mem_nil _)
    · rw [if_neg hz] at hmem
      simp only [List.mem_map, List.mem_range] at hmem
      obtain ⟨dim, _, rfl⟩ := hmem
      set v := bill_loadings.map (fun row => |row.getD dim 0|) with hv
      have hspec := top_selection_spec v (argsort v) top_n hn (argsort_valid v)
      constructor
      · rw [List.length_map, top_indices, hspec.1]
        omega
      · rw [top_indices]
        refine List.Pairwise.map _ ?_ hspec.2.1
        intro i j hij
        exact hij
  · intro dim idx hvalid
    exact top_selection_spec _ idx top_n hn hvalid

/-- C3 witness: two items tied at absolute loading 3 on the single dimension,
`topN = 1`. -/
theorem representative_bills_spec_witness : ExtractorSpec [[3], [3]] [10, 20] det0 1 :=
  representative_bills_spec [[3], [3]] [10, 20] det0 1 (by decide)

/-- C1: with all cells present and `k = min(M, N)` requested, truncation
keeps every component, and `memberLatentVectors * itemLoadingsᵀ =
U_k diag(S_k) V_kᵀ` reconstructs the column-weighted, row-centered matrix
exactly (the model works over `ℝ`; the source reaches the same identity up to
floating-point tolerance). -/
theorem svd_full_rank_reconstruction (m n K k c : ℕ)
    (A : Matrix (Fin m) (Fin n) (Option ℝ)) (w : Fin n → ℝ)
    (d : MatrixModel.SvdData ℝ m n K)
    (hm : 0 < m) (hn : 0 < n)
    (hobs : MatrixModel.FullyObserved A)
    (hk : k = min m n)
    (hc : c = min k (min m n))
    (hsvd : MatrixModel.IsFullSVD
      (MatrixModel.centeredMatrix (MatrixModel.imputeM A) w) d) :
    MatrixModel.memberLatentVectors d c *
        (MatrixModel.itemLoadings d c).transpose =
      MatrixModel.centeredMatrix (MatrixModel.imputeM A) w := by
  subst hk
  rw [Nat.min_self] at hc
  subst hc
  obtain ⟨hK, hA, _, _, _, _⟩ := hsvd
  subst hK
  have hU : MatrixModel.truncCols d.U (min m n) = d.U := by
    ext i j
    rw [MatrixModel.truncCols, Matrix.of_apply, dif_pos j.isLt, Fin.eta]
  have hS : MatrixModel.truncVec d.S (min m n) = d.S := by
    funext j
    rw [MatrixModel.truncVec]
    rw [dif_pos j.isLt, Fin.eta]
  have hV : MatrixModel.truncRows d.Vt (min m n) = d.Vt := by
    ext i j
    rw [MatrixModel.truncRows, Matrix.of_apply, dif_pos i.isLt, Fin.eta]
  rw [MatrixModel.memberLatentVectors, MatrixModel.itemLoadings,
    Matrix.transpose_transpose, hU, hS, hV, hA]

/-- The concrete triple `d1` is an exact reduced SVD of the centered pipeline
matrix of the 1 x 1 voting matrix `A1`. -/
theorem d1_is_svd : MatrixModel.IsFullSVD
    (MatrixModel.centeredMatrix (MatrixModel.imputeM (A1 ℝ)) (w1 ℝ)) (d1 ℝ) := by
  refine ⟨by decide, ?_, ?_, ?_, fun a b _ => le_refl _, fun i => le_refl _⟩
  · ext i j
    simp [MatrixModel.centeredMatrix, MatrixModel.imputeM, MatrixModel.weightedMatrix,
      MatrixModel.rowMean, Matrix.mul_apply, Fin.sum_univ_one, Matrix.diagonal_apply,
      A1, w1, d1]
  · ext i j
    simp [Matrix.mul_apply, Fin.sum_univ_one, Matrix.one_apply, d1,
      Matrix.transpose_apply, Fin.fin_one_eq_zero]
  · ext i j
    simp [Matrix.mul_apply, Fin.sum_univ_one, Matrix.one_apply, d1,
      Matrix.transpose_apply, Fin.fin_one_eq_zero]

/-- C1 witness: the 1 x 1 fully observed matrix with weight 1 and requested
components `k = min(1,1) = 1`. -/
theorem svd_full_rank_reconstruction_witness :
    MatrixModel.memberLatentVectors (d1 ℝ) 1 *
        (MatrixModel.itemLoadings (d1 ℝ) 1).transpose =
      MatrixModel.centeredMatrix (MatrixModel.imputeM (A1 ℝ)) (w1 ℝ) :=
  svd_full_rank_reconstruction 1 1 1 1 1 (A1 ℝ) (w1 ℝ) (d1 ℝ) (by decide) (by decide)
    (fun i j => rfl) rfl rfl d1_is_svd

/-- Dividing each mapped square by a constant divides the mapped sum. -/
theorem list_sum_map_sq_div (l : List ℝ) (t : ℝ) :
    (l.map (fun s => s ^ 2 / t)).sum = (l.map (fun s => s ^ 2)).sum / t := by
  induction l with
  | nil => simp
  | cons a l ih => simp [ih, add_div]

/-- A list of non-negative reals sums to zero exactly when every entry is
zero. -/
theorem list_sum_nonneg_eq_zero_iff (l : List ℝ) (h : ∀ x ∈ l, 0 ≤ x) :
    l.sum = 0 ↔ ∀ x ∈ l, x = 0 := by
  induction l with
  | nil => simp
  | cons a l ih =>
    have ha := h a (List.mem_cons_self a l)
    have hrest : ∀ x ∈ l, 0 ≤ x := fun x hx => h x (List.mem_cons_of_mem a hx)
    have hsum : 0 ≤ l.sum := List.sum_nonneg hrest
    rw [List.sum_cons]
    constructor
    · intro h0
      have ha0 : a = 0 := le_antisymm (by linarith) ha
      have hl0 := (ih hrest).mp (by linarith)
      intro x hx
      rcases List.mem_cons.mp hx with rfl | hx
      · exact ha0
      · exact hl0 x hx
    · intro hall
      rw [hall a (List.mem_cons_self a l),
        (ih hrest).mpr (fun x hx => hall x (List.mem_cons_of_mem a hx))]
      ring

/-- `getD` through `List.take` at an in-range index. -/
theorem getD_take (l : List ℝ) (c i : ℕ) (h : i < (l.take c).length) :
    (l.take c).getD i 0 = l.getD i 0 := by
  have hl : i < l.length := lt_of_lt_of_le h (by simp)
  rw [List.getD_eq_getElem _ _ h, List.getElem_take, List.getD_eq_getElem _ _ hl]

/-- C2 amended: the explained-variance list of any factorized matrix obeys
`EvrSpec`: empty on zero total variance; otherwise each entry is
`S[i]^2 / sum(S_all^2)` (denominator over all singular values of the full
decomposition), the entries are non-increasing, lie in `[0, 1]`, and sum to
at most 1 — with equality exactly when the discarded singular values all
vanish, which can happen below full retention (`c < min(M, N)`); see the
counterexample for why equality is not tied to `k = min(M, N)`. -/
theorem explained_variance_spec (m n K k c : ℕ)
    (A : Matrix (Fin m) (Fin n) (Option ℝ)) (w : Fin n → ℝ)
    (d : MatrixModel.SvdData ℝ m n K)
    (hc : c = min k (min m n))
    (hsvd : MatrixModel.IsFullSVD
      (MatrixModel.centeredMatrix (MatrixModel.imputeM A) w) d) :
    EvrSpec m n K d c := by
  obtain ⟨_, _, _, _, hant, hpos⟩ := hsvd
  have hs_nonneg : ∀ s ∈ MatrixModel.singularList d, 0 ≤ s := by
    intro s hs
    rw [MatrixModel.singularList] at hs
    obtain ⟨i, _, rfl⟩ := List.mem_map.mp hs
    exact hpos i
  have hsq_nonneg : ∀ x ∈ (MatrixModel.singularList d).map (fun s => s ^ 2), 0 ≤ x := by
    intro x hx
    obtain ⟨s, _, rfl⟩ := List.mem_map.mp hx
    exact sq_nonneg s
  have hpair : (MatrixModel.singularList d).Pairwise (fun a b => b ≤ a ∧ 0 ≤ b) := by
    rw [MatrixModel.singularList]
    exact List.Pairwise.map _
      (fun a b hab => ⟨hant (le_of_lt hab), hpos b⟩)
      (List.pairwise_lt_finRange _)
  constructor
  · intro h0
    rw [MatrixModel.explainedVarianceList, if_neg]
    rw [h0]
    exact lt_irrefl 0
  · intro hT
    have hevr : MatrixModel.explainedVarianceList d c =
        ((MatrixModel.singularList d).take c).map
          (fun s => s ^ 2 / MatrixModel.totalVariance d) := by
      rw [MatrixModel.explainedVarianceList, if_pos hT]
    have hsum : (MatrixModel.explainedVarianceList d c).sum =
        (((MatrixModel.singularList d).map (fun s => s ^ 2)).take c).sum /
          MatrixModel.totalVariance d := by
      rw [hevr, list_sum_map_sq_div, List.map_take]
    have hPD := List.sum_take_add_sum_drop
      ((MatrixModel.singularList d).map (fun s => s ^ 2)) c
    have hTdef : MatrixModel.totalVariance d =
        ((MatrixModel.singularList d).map (fun s => s ^ 2)).sum := rfl
    have hD0 : 0 ≤ (((MatrixModel.singularList d).map (fun s => s ^ 2)).drop c).sum :=
      List.sum_nonneg (fun x hx => hsq_nonneg x (List.mem_of_mem_drop hx))
    refine ⟨?_, ?_, ?_, ?_, ?_⟩
    · intro i hi
      rw [hevr] at hi ⊢
      rw [getD_map_lt _ _ _ _ 0 (by simpa using hi),
        getD_take _ _ _ (by simpa using hi)]
    · rw [hevr]
      refine List.Pairwise.map _ ?_ (hpair.sublist (List.take_sublist c _))
      intro a b hab
      exact (div_le_div_iff_of_pos_right hT).mpr (pow_le_pow_left₀ hab.2 hab.1 2)
    · intro x hx
      rw [hevr] at hx
      obtain ⟨s, hs, rfl⟩ := List.mem_map.mp hx
      have hsl := List.mem_of_mem_take hs
      refine ⟨div_nonneg (sq_nonneg s) (le_of_lt hT), ?_⟩
      rw [div_le_one hT, hTdef]
      exact List.single_le_sum hsq_nonneg _ (List.mem_map_of_mem _ hsl)
    · rw [hsum, div_le_one hT, hTdef]
      linarith
    · rw [hsum, div_eq_one_iff_eq (ne_of_gt hT)]
      constructor
      · intro hPT
        intro s hs
        have hD : (((MatrixModel.singularList d).map (fun s => s ^ 2)).drop c).sum =
            0 := by
          rw [hTdef] at hPT
          linarith
        have hall := (list_sum_nonneg_eq_zero_iff _
          (fun x hx => hsq_nonneg x (List.mem_of_mem_drop hx))).mp hD
        have hs2 : s ^ 2 ∈ ((MatrixModel.singularList d).map (fun s => s ^ 2)).drop c := by
          rw [← List.map_drop]
          exact List.mem_map_of_mem _ hs
        exact (pow_eq_zero_iff (two_ne_zero)).mp (hall _ hs2)
      · intro hall
        have hD : (((MatrixModel.singularList d).map (fun s => s ^ 2)).drop c).sum =
            0 := by
          apply (list_sum_nonneg_eq_zero_iff _
            (fun x hx => hsq_nonneg x (List.mem_of_mem_drop hx))).mpr
          intro x hx
          rw [← List.map_drop] at hx
          obtain ⟨s, hs, rfl⟩ := List.mem_map.mp hx
          rw [hall s hs]
          ring
        rw [hTdef]
        linarith

/-- The concrete triple `d0` is an exact reduced SVD of the centered pipeline
matrix of `A0` with all-ones weights. -/
theorem d0_is_svd : MatrixModel.IsFullSVD
    (MatrixModel.centeredMatrix (MatrixModel.imputeM (A0 ℝ)) (w0 ℝ)) (d0 ℝ) := by
  refine ⟨by decide, ?_, ?_, ?_, ?_, ?_⟩
  · ext i j
    fin_cases i <;> fin_cases j <;>
      simp [MatrixModel.centeredMatrix, MatrixModel.imputeM,
        MatrixModel.weightedMatrix, MatrixModel.rowMean, Matrix.mul_apply,
        Fin.sum_univ_two, Fin.sum_univ_four, Matrix.diagonal_apply, A0, w0, d0,
        Matrix.one_apply] <;> norm_num
  · ext i j
    fin_cases i <;> fin_cases j <;>
      simp [Matrix.mul_apply, Fin.sum_univ_two, d0, Matrix.transpose_apply,
        Matrix.one_apply] <;> norm_num
  · ext i j
    fin_cases i <;> fin_cases j <;>
      simp [Matrix.mul_apply, Fin.sum_univ_four, d0, Matrix.transpose_apply,
        Matrix.one_apply] <;> norm_num
  · intro a b hab
    have hab' : (a : ℕ) ≤ (b : ℕ) := hab
    by_cases hb0 : (b : ℕ) = 0
    · have ha0 : (a : ℕ) = 0 := by omega
      simp [d0, ha0, hb0]
    · simp only [d0]
      rw [if_neg hb0]
      split <;> norm_num
  · intro i
    simp only [d0]
    split <;> norm_num

/-- C2 counterexample: the rank-one matrix `A0` (rows `(1,1,-1,-1)` and
zero), all-ones weights, one requested component: the retained dimension
captures all variance, the explained-variance ratios sum to exactly 1, yet
`k = 1` is not `min(M, N) = 2` — the claim's "equality only when
`k == min(M,N)`" fails. -/
theorem explained_variance_sum_one_below_full_rank :
    MatrixModel.IsFullSVD
      (MatrixModel.centeredMatrix (MatrixModel.imputeM (A0 ℝ)) (w0 ℝ)) (d0 ℝ) ∧
    min 1 (min 2 4) ≠ min 2 4 ∧
    (MatrixModel.explainedVarianceList (d0 ℝ) (min 1 (min 2 4))).sum = 1 := by
  refine ⟨d0_is_svd, by decide, ?_⟩
  have h1 : MatrixModel.singularList (d0 ℝ) = [2, 0] := rfl
  have h2 : MatrixModel.totalVariance (d0 ℝ) = 4 := by
    rw [MatrixModel.totalVariance, h1]
    norm_num
  rw [MatrixModel.explainedVarianceList, if_pos (by rw [h2]; norm_num), h1, h2]
  norm_num

/-- C2 witness: the same factorized matrix, one retained component. -/
theorem explained_variance_spec_witness : EvrSpec 2 4 2 (d0 ℝ) 1 :=
  explained_variance_spec 2 4 2 1 1 (A0 ℝ) (w0 ℝ) (d0 ℝ) (by decide) d0_is_svd
